import Mathlib

/-!
Shallow embedding of `backend/app/services/optimization_service.py`
(`OptimizationService`): the run controller (`start_optimization`), the
per-stage segment loop (`_process_stage`), history compression
(`_compress_history`), history snapshots (`_save_history`) and the change
recorder (`_record_change`).

Modelling conventions:
* The database session is modelled as explicit state (`SvcState`); every
  `db.commit()` is just the current state (durability is implicit).
* External collaborators (text splitting, character counting, the
  generative AI calls and the compression call) are parameters in `Env`;
  a call that raises is an `Except.error`.
* Python truthiness of a nullable text column is `truthy : Option String
  → Bool` (`None` and `""` are falsy).
* Timestamps are modelled as a `Bool` "has been set" flag.
* Instrumentation: `trace` records every generative call issued as
  `(segment index, stage)`; `progressTrace` records every value written to
  `session.progress` inside a stage loop; `statusTrace` records every
  value written to `session.status`.
-/

/-- Truthiness of a nullable text column: `None` and `""` are falsy. -/
def truthy : Option String → Bool
  | none => false
  | some s => !s.isEmpty

/-- The three processing stages ("polish", "emotion_polish", "enhance"). -/
inductive Stage where
  | polish
  | emotion_polish
  | enhance
deriving DecidableEq, Repr

/-- The string name of a stage, as it appears in error messages. -/
def Stage.name : Stage → String
  | .polish => "polish"
  | .emotion_polish => "emotion_polish"
  | .enhance => "enhance"

/-- One chat message (a dict with "role" and "content" keys). -/
structure Msg where
  role : String
  content : String
deriving DecidableEq, Repr

/-- An `OptimizationSegment` row. -/
structure Segment where
  segment_index : Nat
  stage : Stage
  original_text : String
  polished_text : Option String
  enhanced_text : Option String
  status : String
  is_title : Bool
  completed_at : Bool
deriving DecidableEq, Repr

/-- The `changes_detail` payload computed by `_record_change`
(serialisation by `json.dumps` is kept structured). -/
structure ChangeDetail where
  before_length : Nat
  after_length : Nat
  changed : Bool
deriving DecidableEq, Repr

/-- A `ChangeLog` row. -/
structure LogEntry where
  segment_index : Nat
  stage : Stage
  before_text : String
  after_text : String
  changes_detail : ChangeDetail
deriving DecidableEq, Repr

/-- A `SessionHistory` row written by `_save_history`. -/
structure HistSnap where
  stage : Stage
  history_data : List Msg
  is_compressed : Bool
  character_count : Nat
deriving DecidableEq, Repr

/-- The `OptimizationSession` row fields used by the service. -/
structure SessionState where
  original_text : String
  processing_mode : Option String
  status : String
  current_stage : Option Stage
  current_position : Nat
  total_segments : Nat
  progress : Rat
  failed_segment_index : Option Int
  error_message : Option String
  completed_at : Bool
deriving DecidableEq, Repr

/-- The whole mutable state of one run: session row, segment rows, audit
log, history snapshots, plus the instrumentation traces. -/
structure SvcState where
  sess : SessionState
  segments : List Segment
  changelog : List LogEntry
  histories : List HistSnap
  trace : List (Nat × Stage)
  progressTrace : List Rat
  statusTrace : List String
deriving DecidableEq, Repr

/-- External collaborators: segmentation, the two counting functions, the
two configured thresholds, the per-stage generative call and the
compression call. -/
structure Env where
  splitText : String → List String
  countLen : String → Nat
  countZh : String → Nat
  skipThresholdSetting : Int
  compressionThreshold : Nat
  aiCall : Stage → String → List Msg → Except String String
  compressCall : List Msg → String → Except String String

/-- Assignment to `session.status`, recorded in the status trace. -/
def setStatus (st : SvcState) (s : String) : SvcState :=
  { st with sess := { st.sess with status := s }, statusTrace := st.statusTrace ++ [s] }

/-- The output field of a stage: `polished_text` for polish and
emotion-polish, `enhanced_text` for enhance. -/
def Stage.outField : Stage → Segment → Option String
  | .enhance, seg => seg.enhanced_text
  | _, seg => seg.polished_text

/-- Write a stage's output field. -/
def Stage.setOutField (stage : Stage) (seg : Segment) (v : String) : Segment :=
  match stage with
  | .enhance => { seg with enhanced_text := some v }
  | _ => { seg with polished_text := some v }

/-- The input text of a generative call: the segment's `polished_text`
for enhance, else `original_text`. -/
def stageInput (stage : Stage) (seg : Segment) : String :=
  if stage = .enhance then seg.polished_text.getD "" else seg.original_text

/-- Effective skip threshold `max(settings.SEGMENT_SKIP_THRESHOLD, 0)`. -/
def skipThreshold (env : Env) : Int := max env.skipThresholdSetting 0

/-- Resume start index: `max(failed_segment_index, 0)` when set, else 0. -/
def resumeStartIndex (sess : SessionState) : Nat :=
  match sess.failed_segment_index with
  | some i => (max i 0).toNat
  | none => 0

/-- Initial history of a stage: the already-present stage outputs of all
non-title segments, as assistant turns, with their summed character
weight. -/
def initHistory (env : Env) (stage : Stage) (segs : List Segment) : List Msg × Nat :=
  segs.foldl
    (fun acc seg =>
      if seg.is_title then acc
      else if truthy (stage.outField seg) then
        (acc.1 ++ [⟨"assistant", (stage.outField seg).getD ""⟩],
         acc.2 + env.countZh ((stage.outField seg).getD ""))
      else acc)
    ([], 0)

/-- The standard compression instruction template. -/
def stdCompressionPrompt : String :=
  "你是一个专业的学术文本摘要助手。请压缩以下历史处理内容，提取关键信息：\n\n1. 保留论文的主要术语、核心概念和关键数据\n2. 总结已处理段落的主题和要点\n3. 提取处理风格和改进方向的关键特征\n4. 删除重复内容和冗余表述\n\n要求：\n- 压缩后内容不超过原内容的30%\n- 保持学术性和专业性\n- 只输出压缩后的摘要文本，不要添加任何解释和注释\n\n\n历史处理内容："

/-- The emotion-focused compression instruction template. -/
def emotionCompressionPrompt : String :=
  "你是一个专业的文本摘要助手。请压缩以下历史处理内容，提取关键风格特征：\n\n1. 总结文本的表达风格和语言特点\n2. 提取关键的修改方向和处理模式\n3. 保留重要的词汇使用倾向\n4. 删除重复的内容和冗余表述\n\n要求：\n- 压缩后内容不超过原内容的30%\n- 只输出压缩后的摘要，不要添加任何解释和注释\n\n历史处理内容："

/-- The compression instruction chosen for a stage. -/
def compressionPrompt (stage : Stage) : String :=
  if stage = .emotion_polish then emotionCompressionPrompt else stdCompressionPrompt

/-- The messages kept as a style sample: `history[-3:]` when the history
is longer than 3 turns, else the whole history. -/
def recentMessages (history : List Msg) : List Msg :=
  if history.length > 3 then history.drop (history.length - 3) else history

/-- Whether a history is in compressed shape: one single system turn. -/
def isCompressedShape (history : List Msg) : Prop :=
  history.length = 1 ∧ (history.headD ⟨"", ""⟩).role = "system"

instance (history : List Msg) : Decidable (isCompressedShape history) := by
  unfold isCompressedShape; infer_instance

/-- `_compress_history`: identity on an already-compressed history, else
summarise the last at-most-3 turns into one system turn. -/
def compressHistory (env : Env) (history : List Msg) (stage : Stage) :
    Except String (List Msg) :=
  if isCompressedShape history then .ok history
  else
    match env.compressCall (recentMessages history) (compressionPrompt stage) with
    | .error e => .error e
    | .ok summary => .ok [⟨"system", "之前处理的段落摘要：\n" ++ summary⟩]

/-- `_save_history`: append a new snapshot row. -/
def saveHistory (st : SvcState) (stage : Stage) (history : List Msg)
    (charCount : Nat) : SvcState :=
  { st with histories := st.histories ++
      [⟨stage, history, decide (isCompressedShape history), charCount⟩] }

/-- Predicate for a change-log key `(segment_index, stage)`. -/
def keyMatches (i : Nat) (stage : Stage) (e : LogEntry) : Bool :=
  decide (e.segment_index = i ∧ e.stage = stage)

/-- Update the latest (last inserted) entry satisfying `p`, or report
that none matches. -/
def updateLatest (p : LogEntry → Bool) (f : LogEntry → LogEntry) :
    List LogEntry → Option (List LogEntry)
  | [] => none
  | x :: xs =>
    match updateLatest p f xs with
    | some xs' => some (x :: xs')
    | none => if p x then some (f x :: xs) else none

/-- The change detail computed by `_record_change`: before/after lengths
and an equality-based changed flag. -/
def changeDetail (before after : String) : ChangeDetail :=
  ⟨before.length, after.length, decide (before ≠ after)⟩

/-- Overwriting an existing audit row in place: new before/after texts
and detail, key untouched. -/
def overwriteEntry (before after : String) (e : LogEntry) : LogEntry :=
  { e with
    before_text := before
    after_text := after
    changes_detail := changeDetail before after }

/-- `_record_change`: overwrite the latest entry for
`(segment_index, stage)` in place when one exists, else insert one. -/
def recordChange (log : List LogEntry) (i : Nat) (stage : Stage)
    (before after : String) : List LogEntry :=
  match updateLatest (keyMatches i stage) (overwriteEntry before after) log with
  | some log' => log'
  | none => log ++ [⟨i, stage, before, after, changeDetail before after⟩]

/-- The 0.5 progress offset applied only to the enhance stage. -/
def Stage.progressOffset (stage : Stage) : Rat :=
  if stage = .enhance then (1 : Rat) / 2 else 0

/-- The progress value written for loop index `idx` out of `n` segments:
`((idx + offset) / n) * 100`. -/
def progressValue (stage : Stage) (idx n : Nat) : Rat :=
  (((idx : Rat) + stage.progressOffset) / (n : Rat)) * 100

/-- The progress/position update performed at the top of every loop
iteration, before any skip check. -/
def progressUpdate (stage : Stage) (idx n : Nat) (st : SvcState) : SvcState :=
  let p := progressValue stage idx n
  { st with
    sess := { st.sess with current_position := idx, progress := p }
    progressTrace := st.progressTrace ++ [p] }

/-- Result of one loop iteration body: continue with updated state and
history, or abort the stage with an error message. -/
inductive StepRes where
  | cont (st : SvcState) (history : List Msg) (total : Nat)
  | fail (st : SvcState) (msg : String)

/-- The state carried by a step result. -/
def StepRes.state : StepRes → SvcState
  | .cont st _ _ => st
  | .fail st _ => st

/-- The wrapping applied by `_run_with_retry` to a failed generative
call: human-facing 1-based segment index plus the stage name. -/
def segmentFailureMsg (idx : Nat) (stage : Stage) (e : String) : String :=
  "段落 " ++ toString (idx + 1) ++ " 在 " ++ stage.name ++ " 阶段失败: " ++ e

/-- The message of the exception re-raised by the segment loop's error
handler (0-based index). -/
def stageAbortMsg (idx : Nat) (e : String) : String :=
  "处理段落 " ++ toString idx ++ " 失败: " ++ e

/-- The loop's exception handler applied to the segment at hand: mark it
failed, record the checkpoint and the error message on the session. -/
def segFailState (st : SvcState) (idx : Nat) (seg : Segment) (emsg : String) :
    SvcState :=
  { st with
    segments := st.segments.set idx { seg with status := "failed" }
    sess := { st.sess with
      failed_segment_index := some (idx : Int)
      error_message := some emsg } }

/-- Bookkeeping after a successful generative call: write the stage's
output field, mark completed, record the change, extend the history,
compress it past the threshold (a compression failure aborts like any
exception in the loop body), and persist a history snapshot. -/
def okRes (env : Env) (stage : Stage) (idx : Nat) (st : SvcState)
    (history : List Msg) (total : Nat) (seg' : Segment) (output : String) :
    StepRes :=
  let segDone := { stage.setOutField seg' output with
    status := "completed", completed_at := true }
  let st2 := { st with
    segments := st.segments.set idx segDone
    changelog := recordChange st.changelog seg'.segment_index stage
      (stageInput stage seg') output }
  let h2 := history ++ [⟨"assistant", output⟩]
  let t2 := total + env.countZh output
  if t2 > env.compressionThreshold then
    match compressHistory env h2 stage with
    | .error e => .fail (segFailState st2 idx segDone e) (stageAbortMsg idx e)
    | .ok newHist =>
      let newTotal := (newHist.map (fun m => env.countZh m.content)).sum
      .cont (saveHistory st2 stage newHist newTotal) newHist newTotal
  else
    .cont (saveHistory st2 stage h2 t2) h2 t2

/-- The segment marked `processing` just before its generative call. -/
def procSeg (stage : Stage) (seg : Segment) : Segment :=
  { seg with status := "processing", stage := stage }

/-- The committed state just before a generative call: the processing
segment row written, the call recorded in the call trace. -/
def procState (stage : Stage) (idx : Nat) (st : SvcState) (seg : Segment) :
    SvcState :=
  { st with
    segments := st.segments.set idx (procSeg stage seg)
    trace := st.trace ++ [(idx, stage)] }

/-- The non-skipped path of a loop iteration: mark the segment
processing, issue the generative call (recorded in the call trace), then
success bookkeeping or failure capture. -/
def callPhase (env : Env) (stage : Stage) (idx : Nat) (st : SvcState)
    (history : List Msg) (total : Nat) (seg : Segment) : StepRes :=
  match env.aiCall stage (stageInput stage (procSeg stage seg)) history with
  | .error e =>
    .fail (segFailState (procState stage idx st seg) idx (procSeg stage seg)
        (segmentFailureMsg idx stage e))
      (stageAbortMsg idx (segmentFailureMsg idx stage e))
  | .ok output =>
    okRes env stage idx (procState stage idx st seg) history total
      (procSeg stage seg) output

/-- The body of one iteration of `_process_stage`'s segment loop (after
the progress update): skip checks, title classification, then the
generative call phase. -/
def stageStep (env : Env) (stage : Stage) (idx : Nat) (st : SvcState)
    (history : List Msg) (total : Nat) : StepRes :=
  match st.segments[idx]? with
  | none => .cont st history total
  | some seg =>
    if (stage = .polish ∨ stage = .emotion_polish) ∧ truthy seg.polished_text then
      .cont st history total
    else if stage = .enhance ∧ (truthy seg.enhanced_text ∨ seg.is_title) then
      if seg.is_title ∧ ¬ truthy seg.enhanced_text then
        let seg' := { seg with
          enhanced_text := some (if truthy seg.polished_text then
            seg.polished_text.getD "" else seg.original_text)
          status := "completed"
          completed_at := true }
        .cont { st with segments := st.segments.set idx seg' } history total
      else
        .cont st history total
    else if (env.countLen seg.original_text : Int) < skipThreshold env then
      let seg' := { seg with
        is_title := true
        status := "completed"
        polished_text := some seg.original_text
        enhanced_text := some seg.original_text
        completed_at := true
        stage := stage }
      .cont { st with segments := st.segments.set idx seg' } history total
    else
      callPhase env stage idx st history total seg

/-- The segment loop of `_process_stage`, from index `idx`, with enough
fuel to reach the end of the segment list. -/
def stageLoop (env : Env) (stage : Stage) :
    Nat → Nat → SvcState → List Msg → Nat → SvcState × Option String
  | 0, _, st, _, _ => (st, none)
  | fuel + 1, idx, st, history, total =>
    if idx < st.segments.length then
      match stageStep env stage idx
          (progressUpdate stage idx st.segments.length st) history total with
      | .cont st2 h2 t2 => stageLoop env stage fuel (idx + 1) st2 h2 t2
      | .fail st2 msg => (st2, some msg)
    else (st, none)

/-- `_process_stage`: set the current stage, build the initial history,
and run the segment loop from the resume start index. -/
def processStage (env : Env) (stage : Stage) (st : SvcState) :
    SvcState × Option String :=
  let st := { st with sess := { st.sess with current_stage := some stage } }
  let init := initHistory env stage st.segments
  stageLoop env stage st.segments.length (resumeStartIndex st.sess) st init.1 init.2

/-- Fresh segment rows produced on first execution, one per piece, in
order, stage initialised to polish, status pending. -/
def materializeSegments (pieces : List String) : List Segment :=
  (List.range pieces.length).zipWith
    (fun i t => ⟨i, .polish, t, none, none, "pending", false, false⟩) pieces

/-- The effective processing mode: the session's mode when truthy, else
the default `paper_polish_enhance`. -/
def effectiveMode (sess : SessionState) : String :=
  match sess.processing_mode with
  | some m => if m = "" then "paper_polish_enhance" else m
  | none => "paper_polish_enhance"

/-- The prelude of `start_optimization`: clear the error state, mark the
session processing, and materialize (or resync) the segments. -/
def startPrelude (env : Env) (st : SvcState) : SvcState :=
  let st := { st with sess := { st.sess with
    error_message := none
    failed_segment_index := none } }
  let st := setStatus st "processing"
  if st.segments.isEmpty then
    let pieces := env.splitText st.sess.original_text
    { st with
      sess := { st.sess with total_segments := pieces.length }
      segments := materializeSegments pieces }
  else
    { st with sess := { st.sess with total_segments := st.segments.length } }

/-- The unsupported-mode error text. -/
def unsupportedModeMsg (mode : String) : String :=
  "不支持的处理模式: " ++ mode

/-- The mode dispatch of `start_optimization`: run the stage sequence of
the (effective) processing mode, or raise the unsupported-mode error. -/
def dispatchStages (env : Env) (st : SvcState) : SvcState × Option String :=
  let mode := effectiveMode st.sess
  if mode = "paper_polish" then processStage env .polish st
  else if mode = "emotion_polish" then processStage env .emotion_polish st
  else if mode = "paper_polish_enhance" then
    match processStage env .polish st with
    | (st1, none) => processStage env .enhance st1
    | r => r
  else (st, some (unsupportedModeMsg mode))

/-- The tail of `start_optimization`: completion bookkeeping on success,
failure capture (and re-raise) on error. -/
def finishRun (run : SvcState × Option String) : SvcState × Option String :=
  match run with
  | (st1, none) =>
    let st2 := setStatus st1 "completed"
    ({ st2 with sess := { st2.sess with
        completed_at := true
        progress := 100
        failed_segment_index := none } }, none)
  | (st1, some e) =>
    let st2 := setStatus st1 "failed"
    ({ st2 with sess := { st2.sess with error_message := some e } }, some e)

/-- `start_optimization`: prelude, stage dispatch by mode, then the
success/failure tail. -/
def startOptimization (env : Env) (st : SvcState) : SvcState × Option String :=
  finishRun (dispatchStages env (startPrelude env st))

/-! ### Basic facts about one loop iteration -/

theorem okRes_length (env : Env) (stage : Stage) (idx : Nat) (st : SvcState)
    (history : List Msg) (total : Nat) (seg' : Segment) (output : String) :
    (okRes env stage idx st history total seg' output).state.segments.length
      = st.segments.length := by
  unfold okRes
  lift_lets
  extract_lets a segDone st2 h2 t2
  split
  · split
    · simp [StepRes.state, segFailState, st2]
    · simp [StepRes.state, saveHistory, st2]
  · simp [StepRes.state, saveHistory, st2]

theorem okRes_other (env : Env) (stage : Stage) (idx : Nat) (st : SvcState)
    (history : List Msg) (total : Nat) (seg' : Segment) (output : String)
    (j : Nat) (hj : j ≠ idx) :
    (okRes env stage idx st history total seg' output).state.segments[j]?
      = st.segments[j]? := by
  unfold okRes
  lift_lets
  extract_lets a segDone st2 h2 t2
  split
  · split
    · simp [StepRes.state, segFailState, st2, List.getElem?_set_ne (Ne.symm hj)]
    · simp [StepRes.state, saveHistory, st2, List.getElem?_set_ne (Ne.symm hj)]
  · simp [StepRes.state, saveHistory, st2, List.getElem?_set_ne (Ne.symm hj)]

theorem okRes_trace (env : Env) (stage : Stage) (idx : Nat) (st : SvcState)
    (history : List Msg) (total : Nat) (seg' : Segment) (output : String) :
    (okRes env stage idx st history total seg' output).state.trace
      = st.trace := by
  unfold okRes
  lift_lets
  extract_lets a segDone st2 h2 t2
  split
  · split
    · simp [StepRes.state, segFailState, st2]
    · simp [StepRes.state, saveHistory, st2]
  · simp [StepRes.state, saveHistory, st2]

theorem okRes_progressTrace (env : Env) (stage : Stage) (idx : Nat)
    (st : SvcState) (history : List Msg) (total : Nat) (seg' : Segment)
    (output : String) :
    (okRes env stage idx st history total seg' output).state.progressTrace
      = st.progressTrace := by
  unfold okRes
  lift_lets
  extract_lets a segDone st2 h2 t2
  split
  · split
    · simp [StepRes.state, segFailState, st2]
    · simp [StepRes.state, saveHistory, st2]
  · simp [StepRes.state, saveHistory, st2]

theorem callPhase_length (env : Env) (stage : Stage) (idx : Nat) (st : SvcState)
    (history : List Msg) (total : Nat) (seg : Segment) :
    (callPhase env stage idx st history total seg).state.segments.length
      = st.segments.length := by
  unfold callPhase
  split
  · simp [StepRes.state, segFailState, procState]
  · rw [okRes_length]
    simp [procState]

theorem callPhase_other (env : Env) (stage : Stage) (idx : Nat) (st : SvcState)
    (history : List Msg) (total : Nat) (seg : Segment)
    (j : Nat) (hj : j ≠ idx) :
    (callPhase env stage idx st history total seg).state.segments[j]?
      = st.segments[j]? := by
  unfold callPhase
  split
  · simp [StepRes.state, segFailState, procState, List.getElem?_set_ne (Ne.symm hj)]
  · rw [okRes_other _ _ _ _ _ _ _ _ j hj]
    simp [procState, List.getElem?_set_ne (Ne.symm hj)]

theorem callPhase_trace (env : Env) (stage : Stage) (idx : Nat) (st : SvcState)
    (history : List Msg) (total : Nat) (seg : Segment) :
    (callPhase env stage idx st history total seg).state.trace
      = st.trace ++ [(idx, stage)] := by
  unfold callPhase
  split
  · simp [StepRes.state, segFailState, procState]
  · rw [okRes_trace]
    simp [procState]

theorem callPhase_progressTrace (env : Env) (stage : Stage) (idx : Nat)
    (st : SvcState) (history : List Msg) (total : Nat) (seg : Segment) :
    (callPhase env stage idx st history total seg).state.progressTrace
      = st.progressTrace := by
  unfold callPhase
  split
  · simp [StepRes.state, segFailState, procState]
  · rw [okRes_progressTrace]
    simp [procState]

theorem stageStep_length (env : Env) (stage : Stage) (idx : Nat) (st : SvcState)
    (history : List Msg) (total : Nat) :
    (stageStep env stage idx st history total).state.segments.length
      = st.segments.length := by
  unfold stageStep
  split
  · rfl
  · split
    · rfl
    · split
      · split
        · simp [StepRes.state]
        · rfl
      · split
        · simp [StepRes.state]
        · exact callPhase_length env stage idx st history total _

theorem stageStep_other (env : Env) (stage : Stage) (idx : Nat) (st : SvcState)
    (history : List Msg) (total : Nat) (j : Nat) (hj : j ≠ idx) :
    (stageStep env stage idx st history total).state.segments[j]?
      = st.segments[j]? := by
  unfold stageStep
  split
  · rfl
  · split
    · rfl
    · split
      · split
        · simp [StepRes.state, List.getElem?_set_ne (Ne.symm hj)]
        · rfl
      · split
        · simp [StepRes.state, List.getElem?_set_ne (Ne.symm hj)]
        · exact callPhase_other env stage idx st history total _ j hj

theorem stageStep_trace (env : Env) (stage : Stage) (idx : Nat) (st : SvcState)
    (history : List Msg) (total : Nat) :
    (stageStep env stage idx st history total).state.trace = st.trace
    ∨ (stageStep env stage idx st history total).state.trace
        = st.trace ++ [(idx, stage)] := by
  unfold stageStep
  split
  · exact Or.inl rfl
  · split
    · exact Or.inl rfl
    · split
      · split
        · exact Or.inl (by simp [StepRes.state])
        · exact Or.inl rfl
      · split
        · exact Or.inl (by simp [StepRes.state])
        · exact Or.inr (callPhase_trace env stage idx st history total _)

theorem stageStep_progressTrace (env : Env) (stage : Stage) (idx : Nat)
    (st : SvcState) (history : List Msg) (total : Nat) :
    (stageStep env stage idx st history total).state.progressTrace
      = st.progressTrace := by
  unfold stageStep
  split
  · rfl
  · split
    · rfl
    · split
      · split
        · simp [StepRes.state]
        · rfl
      · split
        · simp [StepRes.state]
        · exact callPhase_progressTrace env stage idx st history total _

/-- Projection facts for the progress update. -/
theorem progressUpdate_segments (stage : Stage) (idx n : Nat) (st : SvcState) :
    (progressUpdate stage idx n st).segments = st.segments := rfl

theorem progressUpdate_trace (stage : Stage) (idx n : Nat) (st : SvcState) :
    (progressUpdate stage idx n st).trace = st.trace := rfl

theorem progressUpdate_progressTrace (stage : Stage) (idx n : Nat)
    (st : SvcState) :
    (progressUpdate stage idx n st).progressTrace
      = st.progressTrace ++ [progressValue stage idx n] := rfl

/-- A populated stage output makes the iteration body a pure skip. -/
theorem stageStep_skip (env : Env) (stage : Stage) (idx : Nat) (st : SvcState)
    (history : List Msg) (total : Nat) (seg : Segment)
    (hseg : st.segments[idx]? = some seg)
    (hpop : truthy (stage.outField seg) = true) :
    stageStep env stage idx st history total = .cont st history total := by
  unfold stageStep
  cases stage with
  | polish =>
    simp only [Stage.outField] at hpop
    simp [hseg, hpop]
  | emotion_polish =>
    simp only [Stage.outField] at hpop
    simp [hseg, hpop]
  | enhance =>
    simp only [Stage.outField] at hpop
    simp [hseg, hpop]

/-- Boolean key: is this trace entry about segment `i`. -/
def atIdx (i : Nat) : Nat × Stage → Bool := fun a => decide (a.1 = i)

theorem filter_atIdx_append_ne (l : List (Nat × Stage)) (i : Nat)
    (a : Nat × Stage) (h : a.1 ≠ i) :
    (l ++ [a]).filter (atIdx i) = l.filter (atIdx i) := by
  simp [List.filter_append, atIdx, h]

theorem stageLoop_length (env : Env) (stage : Stage) :
    ∀ (fuel idx : Nat) (st : SvcState) (history : List Msg) (total : Nat),
      (stageLoop env stage fuel idx st history total).1.segments.length
        = st.segments.length := by
  intro fuel
  induction fuel with
  | zero => intro idx st history total; rfl
  | succ fuel ih =>
    intro idx st history total
    rw [stageLoop]
    split
    · rcases hstep : stageStep env stage idx
          (progressUpdate stage idx st.segments.length st) history total with
        ⟨st2, h2, t2⟩ | ⟨st2, msg⟩
      · have hlen := stageStep_length env stage idx
          (progressUpdate stage idx st.segments.length st) history total
        rw [hstep] at hlen
        simp only [StepRes.state, progressUpdate_segments] at hlen
        exact (ih (idx + 1) st2 h2 t2).trans hlen
      · have hlen := stageStep_length env stage idx
          (progressUpdate stage idx st.segments.length st) history total
        rw [hstep] at hlen
        simp only [StepRes.state, progressUpdate_segments] at hlen
        exact hlen
    · rfl

theorem stageLoop_preserve (env : Env) (stage : Stage) :
    ∀ (fuel idx : Nat) (st : SvcState) (history : List Msg) (total : Nat)
      (i : Nat) (seg : Segment),
      st.segments[i]? = some seg →
      truthy (stage.outField seg) = true →
      (stageLoop env stage fuel idx st history total).1.segments[i]? = some seg
      ∧ (stageLoop env stage fuel idx st history total).1.trace.filter (atIdx i)
          = st.trace.filter (atIdx i) := by
  intro fuel
  induction fuel with
  | zero => intro idx st history total i seg hseg hpop; exact ⟨hseg, rfl⟩
  | succ fuel ih =>
    intro idx st history total i seg hseg hpop
    rw [stageLoop]
    split
    · by_cases hidx : idx = i
      · subst hidx
        rw [stageStep_skip env stage idx
          (progressUpdate stage idx st.segments.length st) history total seg
          (by rw [progressUpdate_segments]; exact hseg) hpop]
        have := ih (idx + 1) (progressUpdate stage idx st.segments.length st)
          history total idx seg (by rw [progressUpdate_segments]; exact hseg) hpop
        simpa [progressUpdate_trace, progressUpdate_segments] using this
      · have hne : i ≠ idx := fun h => hidx h.symm
        rcases hstep : stageStep env stage idx
            (progressUpdate stage idx st.segments.length st) history total with
          ⟨st2, h2, t2⟩ | ⟨st2, msg⟩
        · have ho := stageStep_other env stage idx
            (progressUpdate stage idx st.segments.length st) history total i hne
          rw [hstep] at ho
          simp only [StepRes.state, progressUpdate_segments] at ho
          have htr : st2.trace.filter (atIdx i) = st.trace.filter (atIdx i) := by
            rcases stageStep_trace env stage idx
                (progressUpdate stage idx st.segments.length st) history total with
              h | h <;> rw [hstep] at h <;>
              simp only [StepRes.state, progressUpdate_trace] at h
            · rw [h]
            · rw [h]; exact filter_atIdx_append_ne _ _ _ hidx
          obtain ⟨h1, h2'⟩ := ih (idx + 1) st2 h2 t2 i seg (ho.trans hseg) hpop
          exact ⟨h1, h2'.trans htr⟩
        · have ho := stageStep_other env stage idx
            (progressUpdate stage idx st.segments.length st) history total i hne
          rw [hstep] at ho
          simp only [StepRes.state, progressUpdate_segments] at ho
          have htr : st2.trace.filter (atIdx i) = st.trace.filter (atIdx i) := by
            rcases stageStep_trace env stage idx
                (progressUpdate stage idx st.segments.length st) history total with
              h | h <;> rw [hstep] at h <;>
              simp only [StepRes.state, progressUpdate_trace] at h
            · rw [h]
            · rw [h]; exact filter_atIdx_append_ne _ _ _ hidx
          exact ⟨ho.trans hseg, htr⟩
    · exact ⟨hseg, rfl⟩

theorem stageLoop_untouched_below (env : Env) (stage : Stage) :
    ∀ (fuel idx : Nat) (st : SvcState) (history : List Msg) (total : Nat)
      (i : Nat), i < idx →
      (stageLoop env stage fuel idx st history total).1.segments[i]?
        = st.segments[i]?
      ∧ (stageLoop env stage fuel idx st history total).1.trace.filter (atIdx i)
          = st.trace.filter (atIdx i) := by
  intro fuel
  induction fuel with
  | zero => intro idx st history total i hi; exact ⟨rfl, rfl⟩
  | succ fuel ih =>
    intro idx st history total i hi
    rw [stageLoop]
    split
    · have hne : i ≠ idx := Nat.ne_of_lt hi
      have hidx : idx ≠ i := fun h => hne h.symm
      rcases hstep : stageStep env stage idx
          (progressUpdate stage idx st.segments.length st) history total with
        ⟨st2, h2, t2⟩ | ⟨st2, msg⟩
      · have ho := stageStep_other env stage idx
          (progressUpdate stage idx st.segments.length st) history total i hne
        rw [hstep] at ho
        simp only [StepRes.state, progressUpdate_segments] at ho
        have htr : st2.trace.filter (atIdx i) = st.trace.filter (atIdx i) := by
          rcases stageStep_trace env stage idx
              (progressUpdate stage idx st.segments.length st) history total with
            h | h <;> rw [hstep] at h <;>
            simp only [StepRes.state, progressUpdate_trace] at h
          · rw [h]
          · rw [h]; exact filter_atIdx_append_ne _ _ _ hidx
        obtain ⟨h1, h2'⟩ := ih (idx + 1) st2 h2 t2 i (Nat.lt_succ_of_lt hi)
        exact ⟨h1.trans ho, h2'.trans htr⟩
      · have ho := stageStep_other env stage idx
          (progressUpdate stage idx st.segments.length st) history total i hne
        rw [hstep] at ho
        simp only [StepRes.state, progressUpdate_segments] at ho
        have htr : st2.trace.filter (atIdx i) = st.trace.filter (atIdx i) := by
          rcases stageStep_trace env stage idx
              (progressUpdate stage idx st.segments.length st) history total with
            h | h <;> rw [hstep] at h <;>
            simp only [StepRes.state, progressUpdate_trace] at h
          · rw [h]
          · rw [h]; exact filter_atIdx_append_ne _ _ _ hidx
        exact ⟨ho, htr⟩
    · exact ⟨rfl, rfl⟩

/-- A non-skippable segment (no stage output, not a title, not short)
sends the iteration body into the generative call phase. -/
theorem stageStep_callPhase (env : Env) (stage : Stage) (idx : Nat)
    (st : SvcState) (history : List Msg) (total : Nat) (seg : Segment)
    (hseg : st.segments[idx]? = some seg)
    (htitle : seg.is_title = false)
    (hempty : truthy (stage.outField seg) = false)
    (hlong : ¬ ((env.countLen seg.original_text : Int) < skipThreshold env)) :
    stageStep env stage idx st history total
      = callPhase env stage idx st history total seg := by
  unfold stageStep
  cases stage with
  | polish =>
    simp only [Stage.outField] at hempty
    simp [hseg, hempty, hlong]
  | emotion_polish =>
    simp only [Stage.outField] at hempty
    simp [hseg, hempty, hlong]
  | enhance =>
    simp only [Stage.outField] at hempty
    simp [hseg, hempty, htitle, hlong]

/-- A raising generative call turns the call phase into the failure
result. -/
theorem callPhase_error (env : Env) (stage : Stage) (idx : Nat)
    (st : SvcState) (history : List Msg) (total : Nat) (seg : Segment)
    (e : String)
    (hcall : env.aiCall stage (stageInput stage (procSeg stage seg)) history
      = .error e) :
    callPhase env stage idx st history total seg
      = .fail (segFailState (procState stage idx st seg) idx (procSeg stage seg)
          (segmentFailureMsg idx stage e))
        (stageAbortMsg idx (segmentFailureMsg idx stage e)) := by
  unfold callPhase
  rw [hcall]

/-- The prelude of `start_optimization` clears the error state. -/
theorem startPrelude_clears (env : Env) (st : SvcState) :
    (startPrelude env st).sess.error_message = none
    ∧ (startPrelude env st).sess.failed_segment_index = none := by
  constructor <;> (simp only [startPrelude, setStatus]; split <;> rfl)

/-- C1: a segment whose output field for the stage is already populated
is skipped without any call to the generative collaborator when that
stage is processed or re-processed — the stage adds no call-trace entry
for that segment, so the generative operation runs at most once per
success. -/
theorem populated_segment_never_resubmitted (env : Env) (stage : Stage)
    (st : SvcState) (i : Nat) (seg : Segment)
    (hseg : st.segments[i]? = some seg)
    (hpop : truthy (stage.outField seg) = true) :
    (processStage env stage st).1.trace.filter (atIdx i)
      = st.trace.filter (atIdx i) :=
  (stageLoop_preserve env stage st.segments.length (resumeStartIndex st.sess)
    { st with sess := { st.sess with current_stage := some stage } }
    (initHistory env stage st.segments).1 (initHistory env stage st.segments).2
    i seg hseg hpop).2

/-- C9: once a stage's output field is populated for a segment, a re-run
of that same stage leaves the segment row — in particular that output
field — unchanged. -/
theorem populated_output_never_overwritten (env : Env) (stage : Stage)
    (st : SvcState) (i : Nat) (seg : Segment)
    (hseg : st.segments[i]? = some seg)
    (hpop : truthy (stage.outField seg) = true) :
    (processStage env stage st).1.segments[i]? = some seg
    ∧ ((processStage env stage st).1.segments[i]?).map (stage.outField)
        = some (stage.outField seg) := by
  have h := (stageLoop_preserve env stage st.segments.length
    (resumeStartIndex st.sess)
    { st with sess := { st.sess with current_stage := some stage } }
    (initHistory env stage st.segments).1 (initHistory env stage st.segments).2
    i seg hseg hpop).1
  have h' : (processStage env stage st).1.segments[i]? = some seg := h
  exact ⟨h', by rw [h']; rfl⟩

/-- C2: the per-segment loop of a stage starts at
`max(failed_segment_index, 0)` when a failed index is set and at 0
otherwise (segments below that index are not touched and get no
generative call), and `start` clears `error_message` and
`failed_segment_index` in its prelude, before any stage runs. -/
theorem resume_start_and_fresh_clear (env : Env) (stage : Stage)
    (st : SvcState) (i : Nat) (hi : i < resumeStartIndex st.sess) :
    ((processStage env stage st).1.segments[i]? = st.segments[i]?
      ∧ (processStage env stage st).1.trace.filter (atIdx i)
          = st.trace.filter (atIdx i))
    ∧ resumeStartIndex st.sess
        = (match st.sess.failed_segment_index with
           | some k => (max k 0).toNat
           | none => 0)
    ∧ (startPrelude env st).sess.error_message = none
    ∧ (startPrelude env st).sess.failed_segment_index = none := by
  refine ⟨?_, rfl, (startPrelude_clears env st).1, (startPrelude_clears env st).2⟩
  exact stageLoop_untouched_below env stage st.segments.length
    (resumeStartIndex st.sess)
    { st with sess := { st.sess with current_stage := some stage } }
    (initHistory env stage st.segments).1 (initHistory env stage st.segments).2
    i hi

/-- C3: in every stage, a segment below the skip threshold whose stage
output is not yet set is classified as a title — `original_text` copied
into both output fields, status completed — and the iteration makes no
generative call (state otherwise untouched, no call-trace entry). -/
theorem short_segment_classified_as_title (env : Env) (stage : Stage)
    (idx : Nat) (st : SvcState) (history : List Msg) (total : Nat)
    (seg : Segment)
    (hseg : st.segments[idx]? = some seg)
    (htitle : seg.is_title = false)
    (hempty : truthy (stage.outField seg) = false)
    (hshort : (env.countLen seg.original_text : Int) < skipThreshold env) :
    stageStep env stage idx st history total
      = .cont { st with segments := st.segments.set idx { seg with
          is_title := true
          status := "completed"
          polished_text := some seg.original_text
          enhanced_text := some seg.original_text
          completed_at := true
          stage := stage } } history total := by
  unfold stageStep
  cases stage with
  | polish =>
    simp only [Stage.outField] at hempty
    simp [hseg, hempty, hshort]
  | emotion_polish =>
    simp only [Stage.outField] at hempty
    simp [hseg, hempty, hshort]
  | enhance =>
    simp only [Stage.outField] at hempty
    simp [hseg, hempty, htitle, hshort]

/-- C8: when the generative call for a segment raises, the stage loop
aborts at once: the segment is marked failed, `failed_segment_index` is
the 0-based index, `error_message` is set, the re-raised error wraps the
original one with the 1-based index and the stage name, and exactly one
call was issued for the segment (no retry at this layer). -/
theorem failing_call_aborts_run (env : Env) (stage : Stage) (fuel idx : Nat)
    (st : SvcState) (history : List Msg) (total : Nat) (seg : Segment)
    (e : String)
    (hseg : st.segments[idx]? = some seg)
    (htitle : seg.is_title = false)
    (hempty : truthy (stage.outField seg) = false)
    (hlong : ¬ ((env.countLen seg.original_text : Int) < skipThreshold env))
    (hcall : env.aiCall stage (stageInput stage seg) history = .error e) :
    (stageLoop env stage (fuel + 1) idx st history total).2
        = some (stageAbortMsg idx (segmentFailureMsg idx stage e))
    ∧ (stageLoop env stage (fuel + 1) idx st history total).1.sess.failed_segment_index
        = some (idx : Int)
    ∧ (stageLoop env stage (fuel + 1) idx st history total).1.sess.error_message
        = some (segmentFailureMsg idx stage e)
    ∧ (stageLoop env stage (fuel + 1) idx st history total).1.segments[idx]?
        = some { seg with status := "failed", stage := stage }
    ∧ (stageLoop env stage (fuel + 1) idx st history total).1.trace
        = st.trace ++ [(idx, stage)] := by
  have hlt : idx < st.segments.length := by
    rcases List.getElem?_eq_some.mp hseg with ⟨h, _⟩
    exact h
  have hstep : stageStep env stage idx
      (progressUpdate stage idx st.segments.length st) history total
      = .fail (segFailState
          (procState stage idx (progressUpdate stage idx st.segments.length st) seg)
          idx (procSeg stage seg) (segmentFailureMsg idx stage e))
        (stageAbortMsg idx (segmentFailureMsg idx stage e)) := by
    rw [stageStep_callPhase env stage idx _ history total seg
      (by rw [progressUpdate_segments]; exact hseg) htitle hempty hlong]
    exact callPhase_error env stage idx _ history total seg e hcall
  rw [stageLoop, if_pos hlt, hstep]
  refine ⟨rfl, rfl, rfl, ?_, rfl⟩
  show ((st.segments.set idx (procSeg stage seg)).set idx
      { procSeg stage seg with status := "failed" })[idx]? = _
  rw [List.getElem?_set_eq_of_lt]
  · rfl
  · simpa using hlt

/-- Number of audit rows for the key `(segment_index, stage)`. -/
def countKey (i : Nat) (stage : Stage) (log : List LogEntry) : Nat :=
  (log.filter (keyMatches i stage)).length

theorem updateLatest_filter_count (p q : LogEntry → Bool) (f : LogEntry → LogEntry)
    (hq : ∀ e, q (f e) = q e) :
    ∀ (log log' : List LogEntry), updateLatest p f log = some log' →
      (log'.filter q).length = (log.filter q).length := by
  intro log
  induction log with
  | nil => intro log' h; cases h
  | cons x xs ih =>
    intro log' h
    unfold updateLatest at h
    rcases hxs : updateLatest p f xs with _ | xs'
    · rw [hxs] at h
      by_cases hpx : p x
      · rw [if_pos hpx] at h
        cases h
        by_cases hqx : q x <;>
          simp [List.filter_cons, hqx, hq x]
      · rw [if_neg hpx] at h
        cases h
    · rw [hxs] at h
      cases h
      by_cases hqx : q x <;>
        simp [List.filter_cons, hqx, ih xs' hxs]

theorem updateLatest_none_no_match (p : LogEntry → Bool) (f : LogEntry → LogEntry) :
    ∀ (log : List LogEntry), updateLatest p f log = none →
      ∀ e ∈ log, p e = false := by
  intro log
  induction log with
  | nil => intro _ e he; cases he
  | cons x xs ih =>
    intro h e he
    unfold updateLatest at h
    rcases hxs : updateLatest p f xs with _ | xs'
    · rw [hxs] at h
      by_cases hpx : p x
      · rw [if_pos hpx] at h; cases h
      · rw [if_neg hpx] at h
        rcases List.mem_cons.mp he with rfl | he'
        · exact Bool.eq_false_iff.mpr hpx
        · exact ih hxs e he'
    · rw [hxs] at h; cases h

theorem updateLatest_some_match (p : LogEntry → Bool) (f : LogEntry → LogEntry) :
    ∀ (log log' : List LogEntry), updateLatest p f log = some log' →
      ∃ e ∈ log, p e = true := by
  intro log
  induction log with
  | nil => intro log' h; cases h
  | cons x xs ih =>
    intro log' h
    unfold updateLatest at h
    rcases hxs : updateLatest p f xs with _ | xs'
    · rw [hxs] at h
      by_cases hpx : p x
      · exact ⟨x, List.mem_cons_self x xs, hpx⟩
      · rw [if_neg hpx] at h; cases h
    · obtain ⟨e, he, hpe⟩ := ih xs' hxs
      exact ⟨e, List.mem_cons_of_mem x he, hpe⟩

/-- C5: `record` keeps at most one audit row per `(run, segment_index,
stage)` key: it overwrites the latest existing row when one exists and
inserts only when none does, and rows for other keys are untouched. -/
theorem record_change_no_duplicates (log : List LogEntry) (i : Nat)
    (stage : Stage) (b a : String) (j : Nat) (stage' : Stage)
    (hne : ¬ (j = i ∧ stage' = stage)) :
    countKey i stage (recordChange log i stage b a)
        = max 1 (countKey i stage log)
    ∧ countKey j stage' (recordChange log i stage b a)
        = countKey j stage' log := by
  unfold recordChange countKey
  rcases hu : updateLatest (keyMatches i stage) (overwriteEntry b a) log
    with _ | log' <;> dsimp only
  · constructor
    · have hz : (log.filter (keyMatches i stage)).length = 0 := by
        rw [List.length_eq_zero, List.filter_eq_nil_iff]
        intro e he
        simp [updateLatest_none_no_match _ _ log hu e he]
      rw [List.filter_append, List.length_append, hz]
      simp [keyMatches]
    · rw [List.filter_append, List.length_append]
      have hk : keyMatches j stage' ⟨i, stage, b, a, changeDetail b a⟩ = false := by
        simp only [keyMatches, decide_eq_false_iff_not]
        rintro ⟨rfl, rfl⟩
        exact hne ⟨rfl, rfl⟩
      simp [hk]
  · have hcnt := updateLatest_filter_count (keyMatches i stage)
      (keyMatches i stage) (overwriteEntry b a) (fun e => rfl) log log' hu
    have hcnt' := updateLatest_filter_count (keyMatches i stage)
      (keyMatches j stage') (overwriteEntry b a) (fun e => rfl) log log' hu
    refine ⟨?_, hcnt'⟩
    obtain ⟨e, he, hpe⟩ := updateLatest_some_match _ _ log log' hu
    have hpos : 0 < (log.filter (keyMatches i stage)).length :=
      List.length_pos.mpr (fun hnil => by
        have := List.mem_filter.mpr ⟨he, hpe⟩
        rw [hnil] at this
        cases this)
    rw [hcnt, Nat.max_eq_right hpos]

/-- C6: compressing an already-compressed history (a single
system-authored turn) is the identity, and otherwise a successful
compression returns a single system-authored turn built from at most the
last 3 turns of the history. -/
theorem compress_identity_on_compressed (env : Env) (stage : Stage)
    (history h2 : List Msg) (s : String)
    (hcomp : isCompressedShape h2)
    (hnot : ¬ isCompressedShape history)
    (hcall : env.compressCall (recentMessages history) (compressionPrompt stage)
      = .ok s) :
    compressHistory env h2 stage = .ok h2
    ∧ compressHistory env history stage
        = .ok [⟨"system", "之前处理的段落摘要：\n" ++ s⟩]
    ∧ isCompressedShape [(⟨"system", "之前处理的段落摘要：\n" ++ s⟩ : Msg)]
    ∧ (recentMessages history).length ≤ 3
    ∧ List.IsSuffix (recentMessages history) history := by
  refine ⟨?_, ?_, ⟨rfl, rfl⟩, ?_, ?_⟩
  · unfold compressHistory
    rw [if_pos hcomp]
  · unfold compressHistory
    rw [if_neg hnot, hcall]
  · unfold recentMessages
    split
    · simp only [List.length_drop]
      omega
    · omega
  · unfold recentMessages
    split
    · exact List.drop_suffix _ _
    · exact List.suffix_refl _

/-- The prelude does not change the processing mode. -/
theorem startPrelude_mode (env : Env) (st : SvcState) :
    (startPrelude env st).sess.processing_mode = st.sess.processing_mode := by
  simp only [startPrelude, setStatus]
  split <;> rfl

/-- The prelude does not touch the generative call trace. -/
theorem startPrelude_trace (env : Env) (st : SvcState) :
    (startPrelude env st).trace = st.trace := by
  simp only [startPrelude, setStatus]
  split <;> rfl

/-- C7: a processing mode outside the fixed mapping makes `start` raise
the unsupported-mode error before any stage processes a segment (no
generative call is traced), and the run ends failed with
`error_message` set to the error text, which is also re-raised. -/
theorem unsupported_mode_fails_fast (env : Env) (st : SvcState)
    (h1 : effectiveMode st.sess ≠ "paper_polish")
    (h2 : effectiveMode st.sess ≠ "emotion_polish")
    (h3 : effectiveMode st.sess ≠ "paper_polish_enhance") :
    (startOptimization env st).2
        = some (unsupportedModeMsg (effectiveMode st.sess))
    ∧ (startOptimization env st).1.sess.status = "failed"
    ∧ (startOptimization env st).1.sess.error_message
        = some (unsupportedModeMsg (effectiveMode st.sess))
    ∧ (startOptimization env st).1.trace = st.trace := by
  have hm : effectiveMode (startPrelude env st).sess = effectiveMode st.sess := by
    unfold effectiveMode
    rw [startPrelude_mode]
  simp only [startOptimization, dispatchStages]
  rw [hm, if_neg h1, if_neg h2, if_neg h3]
  refine ⟨rfl, rfl, rfl, ?_⟩
  show (startPrelude env st).trace = st.trace
  exact startPrelude_trace env st

/-- On a first run (no segment rows yet) the prelude materializes the
segments and persists `total_segments`, after passing the status through
"processing". -/
theorem startPrelude_materializes (env : Env) (st : SvcState)
    (hempty : st.segments = []) :
    startPrelude env st = { st with
      sess := { st.sess with
        error_message := none
        failed_segment_index := none
        status := "processing"
        total_segments := (env.splitText st.sess.original_text).length }
      segments := materializeSegments (env.splitText st.sess.original_text)
      statusTrace := st.statusTrace ++ ["processing"] } := by
  simp only [startPrelude, setStatus]
  rw [if_pos (by rw [hempty]; rfl)]

/-- C10: segment materialization precedes processing-mode validation:
even when `start` is invoked with an unsupported mode and no existing
segments, the segments are created and `total_segments` persisted, the
status passes through "processing" before landing on "failed", and the
unsupported-mode error is raised. -/
theorem materialization_precedes_mode_validation (env : Env) (st : SvcState)
    (hempty : st.segments = [])
    (h1 : effectiveMode st.sess ≠ "paper_polish")
    (h2 : effectiveMode st.sess ≠ "emotion_polish")
    (h3 : effectiveMode st.sess ≠ "paper_polish_enhance") :
    (startOptimization env st).1.segments
        = materializeSegments (env.splitText st.sess.original_text)
    ∧ (startOptimization env st).1.sess.total_segments
        = (env.splitText st.sess.original_text).length
    ∧ (startOptimization env st).1.statusTrace
        = st.statusTrace ++ ["processing", "failed"]
    ∧ (startOptimization env st).2
        = some (unsupportedModeMsg (effectiveMode st.sess)) := by
  have hm : effectiveMode (startPrelude env st).sess = effectiveMode st.sess := by
    unfold effectiveMode
    rw [startPrelude_mode]
  simp only [startOptimization, dispatchStages]
  rw [hm, if_neg h1, if_neg h2, if_neg h3, startPrelude_materializes env st hempty]
  refine ⟨rfl, rfl, ?_, rfl⟩
  show (st.statusTrace ++ ["processing"]) ++ ["failed"]
      = st.statusTrace ++ ["processing", "failed"]
  rw [List.append_assoc]
  rfl

/-- The per-index progress value grows with the loop index. -/
theorem progressValue_mono (stage : Stage) (idx n : Nat) :
    progressValue stage idx n ≤ progressValue stage (idx + 1) n := by
  unfold progressValue
  rcases Nat.eq_zero_or_pos n with h | h
  · subst h; simp
  · have hn : (0 : Rat) < n := by exact_mod_cast h
    have hnum : ((idx : Rat) + stage.progressOffset)
        ≤ (((idx + 1 : Nat) : Rat) + stage.progressOffset) := by
      push_cast
      linarith
    exact mul_le_mul_of_nonneg_right ((div_le_div_iff_of_pos_right hn).mpr hnum)
      (by norm_num)

/-- A progress value written inside the loop is strictly below 100. -/
theorem progressValue_lt_100 (stage : Stage) {idx n : Nat} (h : idx < n) :
    progressValue stage idx n < 100 := by
  unfold progressValue
  have hn : (0 : Rat) < n := by
    exact_mod_cast Nat.lt_of_le_of_lt (Nat.zero_le idx) h
  have hidx : ((idx : Rat) + 1) ≤ n := by exact_mod_cast h
  have hoff : stage.progressOffset ≤ 1 / 2 := by
    unfold Stage.progressOffset
    split <;> norm_num
  have h1 : ((idx : Rat) + stage.progressOffset) / n < 1 :=
    (div_lt_one hn).mpr (by linarith)
  calc ((idx : Rat) + stage.progressOffset) / n * 100 < 1 * 100 :=
        mul_lt_mul_of_pos_right h1 (by norm_num)
    _ = 100 := by norm_num

/-- The sequence of progress values written by the loop from any index:
an appended block, non-decreasing, all below 100. -/
theorem stageLoop_progress (env : Env) (stage : Stage) :
    ∀ (fuel idx : Nat) (st : SvcState) (history : List Msg) (total : Nat),
      ∃ l, (stageLoop env stage fuel idx st history total).1.progressTrace
            = st.progressTrace ++ l
        ∧ List.Pairwise (· ≤ ·) l
        ∧ ∀ p ∈ l, progressValue stage idx st.segments.length ≤ p ∧ p < 100 := by
  intro fuel
  induction fuel with
  | zero =>
    intro idx st history total
    exact ⟨[], by simp [stageLoop], List.Pairwise.nil, by simp⟩
  | succ fuel ih =>
    intro idx st history total
    rw [stageLoop]
    split
    case isTrue hlt =>
      rcases hstep : stageStep env stage idx
          (progressUpdate stage idx st.segments.length st) history total with
        ⟨st2, h2, t2⟩ | ⟨st2, msg⟩
      · have hpt : st2.progressTrace
            = st.progressTrace ++ [progressValue stage idx st.segments.length] := by
          have h := stageStep_progressTrace env stage idx
            (progressUpdate stage idx st.segments.length st) history total
          rw [hstep] at h
          simpa [StepRes.state, progressUpdate_progressTrace] using h
        have hlen2 : st2.segments.length = st.segments.length := by
          have h := stageStep_length env stage idx
            (progressUpdate stage idx st.segments.length st) history total
          rw [hstep] at h
          simpa [StepRes.state, progressUpdate_segments] using h
        obtain ⟨l, hl, hpair, hbound⟩ := ih (idx + 1) st2 h2 t2
        refine ⟨progressValue stage idx st.segments.length :: l, ?_, ?_, ?_⟩
        · show (stageLoop env stage fuel (idx + 1) st2 h2 t2).1.progressTrace = _
          rw [hl, hpt]
          simp
        · refine List.Pairwise.cons (fun q hq => ?_) hpair
          have hb := (hbound q hq).1
          rw [hlen2] at hb
          exact le_trans (progressValue_mono stage idx st.segments.length) hb
        · intro p hp
          rcases List.mem_cons.mp hp with rfl | hp'
          · exact ⟨le_refl _, progressValue_lt_100 stage hlt⟩
          · have hb := hbound p hp'
            rw [hlen2] at hb
            exact ⟨le_trans (progressValue_mono stage idx st.segments.length) hb.1,
              hb.2⟩
      · have hpt : st2.progressTrace
            = st.progressTrace ++ [progressValue stage idx st.segments.length] := by
          have h := stageStep_progressTrace env stage idx
            (progressUpdate stage idx st.segments.length st) history total
          rw [hstep] at h
          simpa [StepRes.state, progressUpdate_progressTrace] using h
        refine ⟨[progressValue stage idx st.segments.length], hpt, ?_, ?_⟩
        · exact List.pairwise_singleton _ _
        · intro p hp
          rcases List.mem_singleton.mp hp with rfl
          exact ⟨le_refl _, progressValue_lt_100 stage hlt⟩
    case isFalse hge =>
      exact ⟨[], by simp, List.Pairwise.nil, by simp⟩

/-- Boolean check: every rational in the list is strictly below 100. -/
def allLtHundred (l : List Rat) : Bool :=
  l.all (fun p => decide (p < 100))

/-- Boolean check: the list of rationals is non-decreasing. -/
def nondecreasingRat : List Rat → Bool
  | [] => true
  | [_] => true
  | a :: b :: r => decide (a ≤ b) && nondecreasingRat (b :: r)

theorem nondecreasingRat_of_pairwise :
    ∀ (l : List Rat), l.Pairwise (· ≤ ·) → nondecreasingRat l = true
  | [], _ => rfl
  | [_], _ => rfl
  | a :: b :: r, h => by
    rcases List.pairwise_cons.mp h with ⟨hab, htail⟩
    unfold nondecreasingRat
    rw [nondecreasingRat_of_pairwise (b :: r) htail]
    simp [hab b (List.mem_cons_self b r)]

theorem allLtHundred_of_forall (l : List Rat) (h : ∀ p ∈ l, p < 100) :
    allLtHundred l = true := by
  unfold allLtHundred
  rw [List.all_eq_true]
  intro p hp
  exact decide_eq_true (h p hp)

/-- C4: within any single stage execution the progress values written
are non-decreasing and all strictly below 100, and `progress` is set to
exactly 100 by the controller on full success of the whole run. -/
theorem progress_monotone_and_100_only_at_completion (env : Env)
    (stage : Stage) (st : SvcState) (env' : Env) (st' : SvcState)
    (res : SvcState)
    (hdone : startOptimization env' st' = (res, none)) :
    (processStage env stage st).1.progressTrace
        = st.progressTrace
          ++ (processStage env stage st).1.progressTrace.drop
              st.progressTrace.length
    ∧ nondecreasingRat
        ((processStage env stage st).1.progressTrace.drop
          st.progressTrace.length) = true
    ∧ allLtHundred
        ((processStage env stage st).1.progressTrace.drop
          st.progressTrace.length) = true
    ∧ res.sess.progress = 100 := by
  obtain ⟨l, hl, hpair, hbound⟩ := stageLoop_progress env stage
    st.segments.length (resumeStartIndex st.sess)
    { st with sess := { st.sess with current_stage := some stage } }
    (initHistory env stage st.segments).1 (initHistory env stage st.segments).2
  have hl' : (processStage env stage st).1.progressTrace
      = st.progressTrace ++ l := hl
  have hdrop : (processStage env stage st).1.progressTrace.drop
      st.progressTrace.length = l := by
    rw [hl']
    exact List.drop_left _ _
  have hprog : res.sess.progress = 100 := by
    unfold startOptimization at hdone
    rcases hr : dispatchStages env' (startPrelude env' st') with ⟨st1, err⟩
    rw [hr] at hdone
    cases err with
    | none =>
      unfold finishRun at hdone
      injection hdone with hfst hsnd
      rw [← hfst]
    | some e =>
      unfold finishRun at hdone
      injection hdone with hfst hsnd
      exact Option.noConfusion hsnd
  refine ⟨?_, ?_, ?_, hprog⟩
  · rw [hdrop]
    exact hl'
  · rw [hdrop]
    exact nondecreasingRat_of_pairwise l hpair
  · rw [hdrop]
    exact allLtHundred_of_forall l (fun p hp => (hbound p hp).2)

/-! ### Concrete witness fixtures -/

/-- A concrete environment whose generative calls succeed. -/
def wEnv : Env where
  splitText := fun s => [s]
  countLen := String.length
  countZh := String.length
  skipThresholdSetting := 2
  compressionThreshold := 1000
  aiCall := fun _ input _ => .ok ("改" ++ input)
  compressCall := fun _ _ => .ok "要点"

/-- A concrete environment whose generative calls raise. -/
def wEnvFail : Env := { wEnv with aiCall := fun _ _ _ => .error "坏" }

/-- A baseline session row. -/
def wSess : SessionState :=
  ⟨"原文", some "paper_polish", "created", none, 0, 0, 0, none, none, false⟩

/-- A segment already polished. -/
def wSegDone : Segment :=
  ⟨0, .polish, "很长的一段文字", some "已润色", none, "completed", false, true⟩

/-- A pending long segment. -/
def wSegLong : Segment :=
  ⟨0, .polish, "足够长的一段", none, none, "pending", false, false⟩

/-- A pending short segment. -/
def wSegShort : Segment :=
  ⟨0, .polish, "短", none, none, "pending", false, false⟩

def wSt1 : SvcState := ⟨wSess, [wSegDone], [], [], [], [], []⟩

def wSt2 : SvcState :=
  ⟨{ wSess with failed_segment_index := some 2 },
   [wSegDone, { wSegDone with segment_index := 1 },
    { wSegLong with segment_index := 2 }], [], [], [], [], []⟩

def wSt3 : SvcState := ⟨wSess, [wSegShort], [], [], [], [], []⟩

def wSt4 : SvcState := ⟨wSess, [wSegLong], [], [], [], [], []⟩

def wSt7 : SvcState :=
  ⟨{ wSess with processing_mode := some "神秘模式" }, [wSegLong],
   [], [], [], [], []⟩

def wSt10 : SvcState :=
  ⟨{ wSess with processing_mode := some "神秘模式" }, [], [], [], [], [], []⟩

/-- A history of four assistant turns (not in compressed shape). -/
def wHist4 : List Msg :=
  [⟨"assistant", "一"⟩, ⟨"assistant", "二"⟩, ⟨"assistant", "三"⟩,
   ⟨"assistant", "四"⟩]

theorem populated_segment_never_resubmitted_witness :
    truthy (Stage.polish.outField wSegDone) = true
    ∧ (processStage wEnv .polish wSt1).1.trace.filter (atIdx 0)
        = wSt1.trace.filter (atIdx 0) :=
  ⟨by decide,
   populated_segment_never_resubmitted wEnv .polish wSt1 0 wSegDone rfl (by decide)⟩

theorem populated_output_never_overwritten_witness :
    truthy (Stage.polish.outField wSegDone) = true
    ∧ (processStage wEnv .polish wSt1).1.segments[0]? = some wSegDone :=
  ⟨by decide,
   (populated_output_never_overwritten wEnv .polish wSt1 0 wSegDone rfl
     (by decide)).1⟩

theorem resume_start_and_fresh_clear_witness :
    1 < resumeStartIndex wSt2.sess
    ∧ (processStage wEnv .polish wSt2).1.segments[1]? = wSt2.segments[1]?
    ∧ (startPrelude wEnv wSt2).sess.failed_segment_index = none :=
  ⟨by decide,
   (resume_start_and_fresh_clear wEnv .polish wSt2 1 (by decide)).1.1,
   (resume_start_and_fresh_clear wEnv .polish wSt2 1 (by decide)).2.2.2⟩

theorem short_segment_classified_as_title_witness :
    (wEnv.countLen wSegShort.original_text : Int) < skipThreshold wEnv
    ∧ stageStep wEnv .polish 0 wSt3 [] 0
        = .cont { wSt3 with segments := wSt3.segments.set 0 { wSegShort with
            is_title := true
            status := "completed"
            polished_text := some wSegShort.original_text
            enhanced_text := some wSegShort.original_text
            completed_at := true
            stage := .polish } } [] 0 :=
  ⟨by decide,
   short_segment_classified_as_title wEnv .polish 0 wSt3 [] 0 wSegShort rfl rfl
     (by decide) (by decide)⟩

theorem progress_monotone_and_100_witness :
    startOptimization wEnv wSt4 = ((startOptimization wEnv wSt4).1, none)
    ∧ nondecreasingRat ((processStage wEnv .polish wSt1).1.progressTrace.drop
        wSt1.progressTrace.length) = true
    ∧ (startOptimization wEnv wSt4).1.sess.progress = 100 :=
  ⟨rfl,
   (progress_monotone_and_100_only_at_completion wEnv .polish wSt1 wEnv wSt4
     (startOptimization wEnv wSt4).1 rfl).2.1,
   (progress_monotone_and_100_only_at_completion wEnv .polish wSt1 wEnv wSt4
     (startOptimization wEnv wSt4).1 rfl).2.2.2⟩

theorem record_change_no_duplicates_witness :
    ¬ ((1 : Nat) = 0 ∧ Stage.polish = Stage.polish)
    ∧ countKey 0 .polish (recordChange [] 0 .polish "甲" "乙")
        = max 1 (countKey 0 .polish [])
    ∧ countKey 1 .polish (recordChange [] 0 .polish "甲" "乙")
        = countKey 1 .polish [] :=
  ⟨by decide,
   (record_change_no_duplicates [] 0 .polish "甲" "乙" 1 .polish (by decide)).1,
   (record_change_no_duplicates [] 0 .polish "甲" "乙" 1 .polish (by decide)).2⟩

theorem compress_identity_on_compressed_witness :
    isCompressedShape [(⟨"system", "摘要"⟩ : Msg)]
    ∧ ¬ isCompressedShape wHist4
    ∧ compressHistory wEnv [(⟨"system", "摘要"⟩ : Msg)] .polish
        = .ok [(⟨"system", "摘要"⟩ : Msg)]
    ∧ compressHistory wEnv wHist4 .polish
        = .ok [⟨"system", "之前处理的段落摘要：\n" ++ "要点"⟩] :=
  ⟨by decide, by decide,
   (compress_identity_on_compressed wEnv .polish wHist4
     [(⟨"system", "摘要"⟩ : Msg)] "要点" (by decide) (by decide) rfl).1,
   (compress_identity_on_compressed wEnv .polish wHist4
     [(⟨"system", "摘要"⟩ : Msg)] "要点" (by decide) (by decide) rfl).2.1⟩

theorem unsupported_mode_fails_fast_witness :
    effectiveMode wSt7.sess ≠ "paper_polish"
    ∧ (startOptimization wEnv wSt7).2
        = some (unsupportedModeMsg (effectiveMode wSt7.sess))
    ∧ (startOptimization wEnv wSt7).1.sess.status = "failed" :=
  ⟨by decide,
   (unsupported_mode_fails_fast wEnv wSt7 (by decide) (by decide) (by decide)).1,
   (unsupported_mode_fails_fast wEnv wSt7 (by decide) (by decide)
     (by decide)).2.1⟩

theorem failing_call_aborts_run_witness :
    wEnvFail.aiCall .polish (stageInput .polish wSegLong) [] = .error "坏"
    ∧ (stageLoop wEnvFail .polish 1 0 wSt4 [] 0).2
        = some (stageAbortMsg 0 (segmentFailureMsg 0 .polish "坏"))
    ∧ (stageLoop wEnvFail .polish 1 0 wSt4 [] 0).1.sess.failed_segment_index
        = some (0 : Int)
    ∧ (stageLoop wEnvFail .polish 1 0 wSt4 [] 0).1.trace = wSt4.trace ++ [(0, .polish)] :=
  ⟨rfl,
   (failing_call_aborts_run wEnvFail .polish 0 0 wSt4 [] 0 wSegLong "坏" rfl rfl
     (by decide) (by decide) rfl).1,
   (failing_call_aborts_run wEnvFail .polish 0 0 wSt4 [] 0 wSegLong "坏" rfl rfl
     (by decide) (by decide) rfl).2.1,
   (failing_call_aborts_run wEnvFail .polish 0 0 wSt4 [] 0 wSegLong "坏" rfl rfl
     (by decide) (by decide) rfl).2.2.2.2⟩

theorem materialization_precedes_mode_validation_witness :
    wSt10.segments = []
    ∧ (startOptimization wEnv wSt10).1.segments
        = materializeSegments (wEnv.splitText wSt10.sess.original_text)
    ∧ (startOptimization wEnv wSt10).1.statusTrace
        = wSt10.statusTrace ++ ["processing", "failed"] :=
  ⟨rfl,
   (materialization_precedes_mode_validation wEnv wSt10 rfl (by decide)
     (by decide) (by decide)).1,
   (materialization_precedes_mode_validation wEnv wSt10 rfl (by decide)
     (by decide) (by decide)).2.2.1⟩
